import Mathlib

/-!
# Verification of `cli/operations.py` (active-learning-detect)

Shallow embedding of the CLI operations module.  Pure helpers
(`supported_file_type`, ` strip_path_prefix`, `_download_bounds`) are
translated directly; the stateful flows (`onboard_folder`, `download`,
`upload`) are translated as functions from their inputs (configuration,
the `os.walk` listing, HTTP responses, filesystem facts) to the ordered
list of externally visible effects they perform together with a normal
or exceptional result.  Printing to stdout is not modelled as an effect.
Code of this repository that lives outside `cli/operations.py`
(`utils/vott_parser`, `functions/pipeline/shared/db_access`) is modelled
from the spec; those definitions carry doc comments saying so.
-/

set_option autoImplicit false

/-! ## `supported_file_type` (operations.py lines 25-33) -/

/-- Index of the last `'.'` in a character list (Python `str.rfind('.')`,
as used by `pathlib.PurePath.suffix`), `none` when there is none. -/
def lastIndexOfDot : List Char → Option Nat
  | [] => none
  | c :: rest =>
    match lastIndexOfDot rest with
    | some i => some (i + 1)
    | none => if c = '.' then some 0 else none

/-- The part of a path after its last `'/'` (the whole path when there
is no `'/'`): `pathlib.PurePath.name` and `urlpath.URL.name` for the
paths and URLs this program builds (pathlib's stripping of a trailing
slash is not needed: `os.walk` file names and the service's image URLs
end in a file name). -/
def lastComponent (cs : List Char) : List Char :=
  (cs.reverse.takeWhile (fun c => c ≠ '/')).reverse

/-- Python `s.startswith(pre)`. -/
def pyStartsWith (pre s : String) : Bool :=
  pre.data.isPrefixOf s.data

/-- Python `s.lower()` (ASCII case mapping, which covers the file
suffixes compared here). -/
def strLower (s : String) : String :=
  ⟨s.data.map Char.toLower⟩

/-- `pathlib.Path(file_name).suffix`: the extension of the final path
component.  pathlib returns `name[i:]` for `i = name.rfind('.')` when
`0 < i < len(name) - 1`, and `""` otherwise (so dotfiles and names with
only a trailing dot have an empty suffix). -/
def pySuffix (file_name : String) : String :=
  let name := lastComponent file_name.data
  match lastIndexOfDot name with
  | none => ""
  | some i => if 0 < i ∧ i + 1 < name.length then ⟨name.drop i⟩ else ""

/-- `supported_file_type` (operations.py lines 25-33). -/
def supported_file_type (file_name : String) : Bool :=
  if pyStartsWith "." file_name then
    false
  else if strLower ( pySuffix file_name) ∈ [".png", ".jpg", ".jpeg", ".gif"] then
    true
  else
    false

/-! ## ` strip_path_prefix` (operations.py lines 42-51)

Python's `str.replace(folder, "")` removes the leftmost occurrence of
`folder`, then continues scanning after the removed occurrence, until no
occurrence is left.  `removeAll` is that semantics on character lists
(with the replacement fixed to the empty string, as in the source).
`pathlib.Path` construction is modelled as the identity on the string
content (its display normalisation, e.g. `Path("")` printing as `"."`,
is outside the model). -/

/-- Worker for `removeAll`.  `skip` counts characters still to consume
from a matched occurrence of `pat`; when `skip = 0` and `pat` matches at
the current position, the occurrence's characters are consumed without
being emitted (one now, `pat.length - 1` through `skip`), which is
exactly CPython's leftmost-first, non-overlapping replacement scan. -/
def removeAllAux (pat : List Char) : Nat → List Char → List Char
  | _, [] => []
  | skip + 1, _ :: rest => removeAllAux pat skip rest
  | 0, c :: rest =>
    if pat ≠ [] ∧ pat.isPrefixOf (c :: rest) then
      removeAllAux pat (pat.length - 1) rest
    else
      c :: removeAllAux pat 0 rest

/-- `s.replace(pat, "")`: leftmost-first, non-overlapping removal of
every occurrence of `pat` (for `pat = []`, Python's
`s.replace("", "")` is the identity, matched by the guard in
`removeAllAux`). -/
def removeAll (pat : List Char) (s : List Char) : List Char :=
  removeAllAux pat 0 s

/-- Decides whether `pat` occurs as a contiguous substring of `s`
(Python `pat in s`). -/
def containsSub (pat : List Char) : List Char → Bool
  | [] => pat.isPrefixOf []
  | c :: rest => pat.isPrefixOf (c :: rest) || containsSub pat rest

/-- ` strip_path_prefix` in character-list form: remove every occurrence
of `folder_name`, then one leading `'/'` if present. -/
def stripChars (folder_name file_path : List Char) : List Char :=
  let stripped_path := removeAll folder_name file_path
  match stripped_path with
  | '/' :: rest => rest
  | other => other

/-- ` strip_path_prefix` (operations.py lines 42-51). -/
def strip_path_prefix (folder_name file_path : String) : String :=
  ⟨ stripChars folder_name.data file_path.data⟩

/-! ## Configuration and the `os.walk` listing -/

/-- The configuration keys `config.get(...)` reads in operations.py. -/
structure Config where
  url : String
  tagging_user : String
  tagging_location : String
  storage_temp_container : String
  storage_account : String
  storage_key : String
  storage_container : String
deriving DecidableEq, Repr

/-- One `(root, dirs, files)` triple yielded by `os.walk(folder_name)`.
The walk listing is an input to the embedded `onboard_folder`: the
filesystem is external. -/
structure WalkEntry where
  root : String
  dirs : List String
  files : List String
deriving DecidableEq, Repr

/-- Python `s.endswith(suf)`. -/
def pyEndsWith (suf s : String) : Bool :=
  suf.data.isSuffixOf s.data

/-- `os.path.join(root, name)` (posixpath): an absolute `name` replaces
`root`; otherwise `root` and `name` are joined with exactly one `'/'`. -/
def joinPath (root name : String) : String :=
  if pyStartsWith "/" name then name
  else if root = "" then name
  else if pyEndsWith "/" root then root ++ name
  else root ++ "/" ++ name

/-- `os.path.expanduser`: tagging locations in this model carry no `~`
component, on which expanduser is the identity. -/
def expanduser (s : String) : String := s

/-! ## Label records and the VoTT document (modelled from the spec)

`utils/vott_parser` and `functions/pipeline/shared/db_access` are code
of this repository that is not under `src/`; operations.py only imports
them.  They are modelled from the spec: "The 'interesting' pieces (the
JSON schema transform between the labeling-tool format and the service's
label format) are small, pure, side-effect-free mapping functions". -/

/-- Modelled from the spec: a bounding-box tag of
`functions/pipeline/shared/db_access.ImageTag` (not under `src/`). -/
structure ImageTag where
  className : String
  x1 : Int
  x2 : Int
  y1 : Int
  y2 : Int
deriving DecidableEq, Repr

/-- Modelled from the spec: a label record returned by the images
endpoint (`functions/pipeline/shared/db_access.ImageLabel`, not under
`src/`); `ImageLabel.fromJson` is modelled as the identity on the
already-parsed record. -/
structure ImageLabel where
  imageId : Nat
  imageUrl : String
  tags : List ImageTag
deriving DecidableEq, Repr

/-- Modelled from the spec: the labeling-tool (VoTT) JSON document, a
non-empty JSON object (hence truthy in Python) holding per-frame tags
and the class list. -/
structure VottJson where
  frames : List (String × List ImageTag)
  inputTags : List String
deriving DecidableEq, Repr

/-- The service's label submission format. -/
abbrev LabelsPayload := List (String × List ImageTag)

/-- `URL(url).name` / the last path component of a URL. -/
def urlName (u : String) : String :=
  ⟨ lastComponent u.data⟩

/-- Modelled from the spec: `create_vott_json_from_image_labels` of
`utils/vott_parser` (not under `src/`), a pure mapping from the returned
label records and class list to the labeling-tool JSON document and the
list of referenced image URLs. -/
def create_vott_json_from_image_labels (labels : List ImageLabel)
    (classification_list : List String) : VottJson × List String :=
  ({ frames := labels.map (fun l => ( urlName l.imageUrl, l.tags)),
     inputTags := classification_list },
   labels.map (fun l => l.imageUrl))

/-- Modelled from the spec: `process_vott_json` of `utils/vott_parser`
(not under `src/`), a pure mapping from the locally edited labeling-tool
document to the service's label submission format. -/
def process_vott_json (v : VottJson) : LabelsPayload :=
  v.frames

/-! ## Effects and HTTP plumbing -/

/-- The request body of a POST in this module. -/
inductive PostBody where
  | onboardReq (storageAccount storageAccountKey storageContainer : String)
  | labelsReq (payload : LabelsPayload)
deriving DecidableEq, Repr

/-- An externally visible action of a flow, in execution order.  stdout
printing is not modelled.  `writeImageFile path fromUrl` stands for
streaming the body of the preceding GET of `fromUrl` into `path`. -/
inductive Effect where
  | uploadBlob (container blobName sourcePath contentType : String)
      (metadata : List (String × String))
  | httpPost (url : String) (query : List (String × String)) (body : PostBody)
  | httpGet (url : String) (query : List (String × String))
  | rmtree (path : String)
  | mkdir (path : String)
  | writeJsonFile (path : String) (content : VottJson)
  | writeImageFile (path : String) (fromUrl : String)
  | readJsonFile (path : String)
deriving DecidableEq, Repr

/-- `requests.exceptions.HTTPError`, carrying the response status. -/
structure HTTPError where
  status : Nat
deriving DecidableEq, Repr

/-- `requests` raises for client and server error statuses. -/
def isErrorStatus (s : Nat) : Bool :=
  decide (400 ≤ s ∧ s < 600)

/-- `Response.raise_for_status()`. -/
def raise_for_status (s : Nat) : Except HTTPError Unit :=
  if isErrorStatus s then Except.error ⟨s⟩ else Except.ok ()

/-! ## Onboard flow (operations.py lines 55-124) -/

/-- The file-collection loop of `onboard_folder` (lines 62-72): walk
entries in order; levels with no files are skipped (`continue`, which
coincides with filtering an empty list); each supported file is appended
as `os.path.join(root, file_name)`. -/
def collectOnboardingFiles : List WalkEntry → List String
  | [] => []
  | e :: rest =>
    (if e.files.length = 0 then []
     else (e.files.filter (fun f => supported_file_type f)).map
       (fun f => joinPath e.root f))
    ++ collectOnboardingFiles rest

/-- `onboard_container` (operations.py lines 104-124): POST the storage
coordinates to `<url>/api/onboardcontainer` with the user name as query
parameter, then `raise_for_status`. -/
def onboard_container (config : Config) (account key container : String)
    (respStatus : Nat) : List Effect × Except HTTPError Unit :=
  let function_url := config.url ++ "/api/onboardcontainer"
  let query := [("userName", config.tagging_user)]
  ([Effect.httpPost function_url query
      (PostBody.onboardReq account key container)],
   raise_for_status respStatus)

/-- The blob upload for one collected path (operations.py lines 78-93):
blob name ` strip_path_prefix folder_name blob_path`, content type
`image/png`, metadata recording the original path and the uploading
user. -/
def uploadEffect (config : Config) (folder_name blob_path : String) : Effect :=
  Effect.uploadBlob config.storage_temp_container
    ( strip_path_prefix folder_name blob_path)
    blob_path
    "image/png"
    [("userFilePath", blob_path), ("uploadUser", config.tagging_user)]

/-- `onboard_folder` (operations.py lines 55-101): collect supported
files from the walk; when none, return; otherwise upload each and
trigger `onboard_container` on `config['storage_container']` (the
response status of that POST is the `respStatus` input). -/
def onboard_folder (config : Config) (folder_name : String)
    (walk : List WalkEntry) (respStatus : Nat) :
    List Effect × Except HTTPError Unit :=
  let onboarding_files := collectOnboardingFiles walk
  if onboarding_files.length = 0 then
    ([], Except.ok ())
  else
    let uploads := onboarding_files.map (fun blob_path =>
      uploadEffect config folder_name blob_path)
    let oc := onboard_container config config.storage_account
      config.storage_key config.storage_container respStatus
    (uploads ++ oc.1, oc.2)

/-! ## Download flow (operations.py lines 127-226) -/

def DEFAULT_NUM_IMAGES : Int := 40
def LOWER_LIMIT : Int := 0
def UPPER_LIMIT : Int := 100

/-- `ImageLimitException` (operations.py lines 21-22). -/
inductive ImageLimitException where
  | mk
deriving DecidableEq, Repr

/-- `_download_bounds` (operations.py lines 127-136). -/
def _download_bounds (num_images : Option Int) :
    Except ImageLimitException Int :=
  let images_to_download :=
    match num_images with
    | none => DEFAULT_NUM_IMAGES
    | some n => n
  if images_to_download ≤ LOWER_LIMIT ∨ UPPER_LIMIT < images_to_download then
    Except.error ImageLimitException.mk
  else
    Except.ok images_to_download

/-- The images-endpoint response: HTTP status, the parsed value of the
`images` field (a JSON list of label records), and the
`classification_list` field. -/
structure ImagesResponse where
  status : Nat
  images : List ImageLabel
  classification_list : List String
deriving Repr

/-- An exception escaping `download`. -/
inductive FlowError where
  | limit (e : ImageLimitException)
  | http (e : HTTPError)
deriving DecidableEq, Repr

/-- `write_vott_data` (operations.py lines 215-226): VoTT expects the
json file at the same level as the directory, so the target is
`<image_dir>/../data.json`; `json_resp.get("vott_json", None)` is
modelled as an `Option`, and a present VoTT document is a non-empty
JSON object, hence truthy: nothing is written only when it is absent. -/
def write_vott_data (image_dir : String) (vott_json : Option VottJson) :
    List Effect :=
  let data_file := image_dir ++ "/../data.json"
  match vott_json with
  | none => []
  | some v => [Effect.writeJsonFile data_file v]

/-- The per-URL loop of `download_images` (operations.py lines 199-211):
for each URL, GET it and stream the body into
`<image_dir>/<URL(url).name>`, collecting the local paths in order. -/
def downloadImagesLoop (image_dir : String) :
    List String → List Effect × List String
  | [] => ([], [])
  | url_path :: rest =>
    let file_path := image_dir ++ "/" ++ urlName url_path
    let r := downloadImagesLoop image_dir rest
    (Effect.httpGet url_path [] :: Effect.writeImageFile file_path url_path :: r.1,
     file_path :: r.2)

/-- `download_images` (operations.py lines 191-212). -/
def download_images (image_dir : String) (vott_json : Option VottJson)
    (image_urls : List String) : List Effect × List String :=
  let w := write_vott_data image_dir vott_json
  let r := downloadImagesLoop image_dir image_urls
  (w ++ r.1, r.2)

/-- `download` (operations.py lines 139-188): bound the count (an
`ImageLimitException` escapes before any request); GET the images
endpoint and `raise_for_status`; on an empty batch return; otherwise
remove any existing tagging directory, create `<tagging>/data`, build
the VoTT document from the checked-out labels, and hand off to
`download_images`.  `taggingDirExists` is the value of
`file_tree.exists()`. -/
def download (config : Config) (num_images : Option Int)
    (resp : ImagesResponse) (taggingDirExists : Bool) :
    List Effect × Except FlowError Unit :=
  let functions_url := config.url ++ "/api/images"
  match _download_bounds num_images with
  | Except.error e => ([], Except.error (FlowError.limit e))
  | Except.ok images_to_download =>
    let query := [("imageCount", toString images_to_download),
                  ("userName", config.tagging_user),
                  ("checkOut", "true")]
    let getEffect := Effect.httpGet functions_url query
    match raise_for_status resp.status with
    | Except.error e => ([getEffect], Except.error (FlowError.http e))
    | Except.ok _ =>
      let images_json := resp.images
      if images_json.length = 0 then
        ([getEffect], Except.ok ())
      else
        let file_tree := expanduser config.tagging_location
        let rmEffects := if taggingDirExists then [Effect.rmtree file_tree] else []
        let data_dir := file_tree ++ "/data"
        let checkedout_image_labels := images_json
        let p := create_vott_json_from_image_labels checkedout_image_labels
          resp.classification_list
        let dl := download_images data_dir (some p.1) p.2
        (getEffect :: rmEffects ++ Effect.mkdir data_dir :: dl.1, Except.ok ())

/-! ## Upload flow (operations.py lines 229-251) -/

/-- `upload` (operations.py lines 229-251): read
`<tagging_location>/data.json` (its parsed content is the `json_data`
input), transform it with `process_vott_json`, POST the result to
`<url>/api/labels` with `userName` and `upload=true` as query
parameters, then `raise_for_status`. -/
def upload (config : Config) (json_data : VottJson) (respStatus : Nat) :
    List Effect × Except HTTPError Unit :=
  let functions_url := config.url ++ "/api/labels"
  let tagging_location := expanduser config.tagging_location
  let vott_json := tagging_location ++ "/data.json"
  let process_json := process_vott_json json_data
  let query := [("userName", config.tagging_user), ("upload", "true")]
  ([Effect.readJsonFile vott_json,
    Effect.httpPost functions_url query (PostBody.labelsReq process_json)],
   raise_for_status respStatus)

/-! ## Remaining definitions used by the statements -/

/-- The source paths of the blob uploads in an effect list, in order. -/
def uploadSources (effects : List Effect) : List String :=
  effects.filterMap (fun e =>
    match e with
    | Effect.uploadBlob _ _ sourcePath _ _ => some sourcePath
    | _ => none)

/-- Whether an effect touches the local filesystem. -/
def isFsEffect : Effect → Bool
  | Effect.rmtree _ => true
  | Effect.mkdir _ => true
  | Effect.writeJsonFile _ _ => true
  | Effect.writeImageFile _ _ => true
  | _ => false

/-- One lexical path-normalisation step: `""` and `"."` components are
dropped, `".."` pops the previous real component. -/
def normStep (acc : List (List Char)) (c : List Char) : List (List Char) :=
  if c = [] ∨ c = ['.'] then acc
  else if c = ['.', '.'] then
    match acc.getLast? with
    | some l => if l = ['.', '.'] then acc ++ [c] else acc.dropLast
    | none => [c]
  else acc ++ [c]

/-- Lexical normalisation of a list of path components. -/
def normComps (cs : List (List Char)) : List (List Char) :=
  cs.foldl normStep []

/-- Split a character list at every `'/'` (the components of a path,
empty components included). -/
def splitSlash : List Char → List (List Char)
  | [] => [[]]
  | c :: rest =>
    if c = '/' then [] :: splitSlash rest
    else
      match splitSlash rest with
      | g :: gs => (c :: g) :: gs
      | [] => [[c]]

/-- The lexically normalised components of a path string: where a path
with `".."` segments points. -/
def normPath (s : String) : List (List Char) :=
  normComps (splitSlash s.data)

instance {ε α : Type} [DecidableEq ε] [DecidableEq α] :
    DecidableEq (Except ε α) := fun a b =>
  match a, b with
  | Except.ok x, Except.ok y =>
    if h : x = y then Decidable.isTrue (by rw [h])
    else Decidable.isFalse (fun hc => h (Except.ok.inj hc))
  | Except.error x, Except.error y =>
    if h : x = y then Decidable.isTrue (by rw [h])
    else Decidable.isFalse (fun hc => h (Except.error.inj hc))
  | Except.ok _, Except.error _ => Decidable.isFalse (fun hc => Except.noConfusion hc)
  | Except.error _, Except.ok _ => Decidable.isFalse (fun hc => Except.noConfusion hc)

/-- A concrete configuration used to instantiate theorems. -/
def cfg0 : Config :=
  { url := "http://svc"
    tagging_user := "alice"
    tagging_location := "/tag"
    storage_temp_container := "temp"
    storage_account := "acct"
    storage_key := "key"
    storage_container := "cont" }

/-! # Theorems -/

theorem removeAll_of_not_containsSub (pat : List Char) :
    ∀ s : List Char, containsSub pat s = false → removeAll pat s = s := by
  intro s
  induction s with
  | nil => intro _; rfl
  | cons c rest ih =>
    intro h
    simp only [containsSub, Bool.or_eq_false_iff] at h
    show removeAllAux pat 0 (c :: rest) = c :: rest
    rw [removeAllAux, if_neg]
    · exact congrArg (c :: ·) (ih h.2)
    · intro hc
      rw [h.1] at hc
      exact Bool.false_ne_true hc.2

theorem removeAllAux_skip (pat : List Char) :
    ∀ l t : List Char, removeAllAux pat l.length (l ++ t) = removeAllAux pat 0 t := by
  intro l
  induction l with
  | nil => intro t; rfl
  | cons x l' ih => intro t; exact ih t

theorem removeAll_append_self (pat t : List Char) (h : pat ≠ []) :
    removeAll pat (pat ++ t) = removeAll pat t := by
  obtain ⟨a, pat', rfl⟩ : ∃ a pat', pat = a :: pat' := by
    cases pat with
    | nil => exact absurd rfl h
    | cons a pat' => exact ⟨a, pat', rfl⟩
  show removeAllAux (a :: pat') 0 (a :: (pat' ++ t)) = removeAllAux (a :: pat') 0 t
  rw [removeAllAux, if_pos]
  · show removeAllAux (a :: pat') pat'.length (pat' ++ t) = _
    exact removeAllAux_skip (a :: pat') pat' t
  · exact ⟨h, by
      rw [show a :: (pat' ++ t) = (a :: pat') ++ t from rfl]
      exact List.isPrefixOf_iff_prefix.mpr (List.prefix_append _ _)⟩

theorem mem_collectOnboardingFiles (p : String) :
    ∀ walk : List WalkEntry,
      p ∈ collectOnboardingFiles walk ↔
        ∃ e ∈ walk, ∃ f ∈ e.files,
          supported_file_type f = true ∧ p = joinPath e.root f := by
  intro walk
  induction walk with
  | nil => simp [collectOnboardingFiles]
  | cons e rest ih =>
    simp only [collectOnboardingFiles, List.mem_append, ih, List.mem_cons]
    constructor
    · rintro (hhd | ⟨a, ha, hf⟩)
      · by_cases h0 : e.files.length = 0
        · rw [if_pos h0] at hhd
          exact absurd hhd (List.not_mem_nil p)
        · rw [if_neg h0] at hhd
          obtain ⟨f, hf, rfl⟩ := List.mem_map.mp hhd
          obtain ⟨hfmem, hsup⟩ := List.mem_filter.mp hf
          exact ⟨e, Or.inl rfl, f, hfmem, hsup, rfl⟩
      · exact ⟨a, Or.inr ha, hf⟩
    · rintro ⟨a, (rfl | ha), f, hfmem, hsup, rfl⟩
      · left
        have h0 : a.files.length ≠ 0 :=
          fun hl => (List.length_eq_zero.mp hl ▸ List.not_mem_nil f) hfmem
        rw [if_neg h0]
        exact List.mem_map.mpr ⟨f, List.mem_filter.mpr ⟨hfmem, hsup⟩, rfl⟩
      · exact Or.inr ⟨a, ha, f, hfmem, hsup, rfl⟩

theorem uploadSources_onboard_folder (config : Config) (folder_name : String)
    (walk : List WalkEntry) (respStatus : Nat) :
    uploadSources (onboard_folder config folder_name walk respStatus).1
      = collectOnboardingFiles walk := by
  unfold onboard_folder
  by_cases h0 : (collectOnboardingFiles walk).length = 0
  · rw [if_pos h0]
    rw [List.length_eq_zero.mp h0]
    rfl
  · rw [if_neg h0]
    show uploadSources
        ((collectOnboardingFiles walk).map (uploadEffect config folder_name)
          ++ (onboard_container config config.storage_account config.storage_key
                config.storage_container respStatus).1) = _
    rw [uploadSources, List.filterMap_append, List.filterMap_map]
    show (collectOnboardingFiles walk).filterMap (fun bp => some bp) ++ [] = _
    simp

/-- C1: a file name met while walking the onboard folder is uploaded by
`onboard_folder` exactly when `supported_file_type` accepts it — the
name does not start with `'.'` and its suffix, lowered, is one of
`.png`, `.jpg`, `.jpeg`, `.gif`; every other file is skipped.  Stated
as: (1) the characterisation of `supported_file_type`; (2) the sources
of the blob uploads `onboard_folder` performs are exactly the collected
files; (3) a path is collected iff it is `os.path.join(root, f)` for
some walk entry and accepted file name `f` of that entry. -/
theorem onboard_uploads_iff_supported :
    (∀ file_name : String,
        supported_file_type file_name = true ↔
          (pyStartsWith "." file_name = false ∧
           strLower ( pySuffix file_name) ∈ [".png", ".jpg", ".jpeg", ".gif"]))
    ∧ (∀ (config : Config) (folder_name : String) (walk : List WalkEntry)
          (respStatus : Nat),
        uploadSources (onboard_folder config folder_name walk respStatus).1
          = collectOnboardingFiles walk)
    ∧ (∀ (p : String) (walk : List WalkEntry),
        p ∈ collectOnboardingFiles walk ↔
          ∃ e ∈ walk, ∃ f ∈ e.files,
            supported_file_type f = true ∧ p = joinPath e.root f) := by
  refine ⟨?_, uploadSources_onboard_folder, fun p walk => mem_collectOnboardingFiles p walk⟩
  intro file_name
  unfold supported_file_type
  rcases Bool.eq_false_or_eq_true (pyStartsWith "." file_name) with h1 | h1
  · by_cases h2 : strLower ( pySuffix file_name) ∈ [".png", ".jpg", ".jpeg", ".gif"]
    · simp [h1, h2]
    · simp [h1, h2]
  · simp [h1]

/-- C3: with at least one supported file collected, `onboard_folder`
uploads every collected file to the temporary storage container — blob
name ` strip_path_prefix folder_name blob_path`, metadata recording the
original file path (`userFilePath`) and the uploading user
(`uploadUser`) — and then POSTs the storage coordinates to the remote
`/api/onboardcontainer` endpoint to trigger ingestion. -/
theorem onboard_folder_uploads_then_triggers (config : Config)
    (folder_name : String) (walk : List WalkEntry) (respStatus : Nat)
    (h : collectOnboardingFiles walk ≠ []) :
    onboard_folder config folder_name walk respStatus =
      ((collectOnboardingFiles walk).map (fun blob_path =>
          Effect.uploadBlob config.storage_temp_container
            ( strip_path_prefix folder_name blob_path)
            blob_path
            "image/png"
            [("userFilePath", blob_path), ("uploadUser", config.tagging_user)])
        ++ [Effect.httpPost (config.url ++ "/api/onboardcontainer")
              [("userName", config.tagging_user)]
              (PostBody.onboardReq config.storage_account config.storage_key
                config.storage_container)],
       raise_for_status respStatus) := by
  unfold onboard_folder
  rw [if_neg (fun h0 => h (List.length_eq_zero.mp h0))]
  rfl

theorem c3_witness :
    onboard_folder cfg0 "/f" [⟨"/f", [], ["a.jpg"]⟩] 200 =
      ((collectOnboardingFiles [⟨"/f", [], ["a.jpg"]⟩]).map (fun blob_path =>
          Effect.uploadBlob cfg0.storage_temp_container
            ( strip_path_prefix "/f" blob_path)
            blob_path
            "image/png"
            [("userFilePath", blob_path), ("uploadUser", cfg0.tagging_user)])
        ++ [Effect.httpPost (cfg0.url ++ "/api/onboardcontainer")
              [("userName", cfg0.tagging_user)]
              (PostBody.onboardReq cfg0.storage_account cfg0.storage_key
                cfg0.storage_container)],
       raise_for_status 200) :=
  onboard_folder_uploads_then_triggers cfg0 "/f" [⟨"/f", [], ["a.jpg"]⟩] 200
    (by decide)

theorem collectOnboardingFiles_eq_nil :
    ∀ walk : List WalkEntry,
      (∀ e ∈ walk, ∀ f ∈ e.files, supported_file_type f = false) →
      collectOnboardingFiles walk = [] := by
  intro walk
  induction walk with
  | nil => intro _; rfl
  | cons e rest ih =>
    intro h
    show (if e.files.length = 0 then []
          else (e.files.filter (fun f => supported_file_type f)).map
            (fun f => joinPath e.root f))
        ++ collectOnboardingFiles rest = []
    rw [ih (fun a ha f hf => h a (List.mem_cons_of_mem e ha) f hf),
        List.append_nil]
    by_cases h0 : e.files.length = 0
    · rw [if_pos h0]
    · rw [if_neg h0]
      rw [List.filter_eq_nil_iff.mpr
        (fun f hf => by
          rw [h e (List.mem_cons_self e rest) f hf]
          exact Bool.false_ne_true)]
      rfl

/-- C10: when the walk yields no supported files, `onboard_folder`
performs no effect at all — no blob upload and no call to the
onboard-container endpoint — and returns normally. -/
theorem onboard_folder_no_supported_no_effects (config : Config)
    (folder_name : String) (walk : List WalkEntry) (respStatus : Nat)
    (h : ∀ e ∈ walk, ∀ f ∈ e.files, supported_file_type f = false) :
    onboard_folder config folder_name walk respStatus = ([], Except.ok ()) := by
  unfold onboard_folder
  rw [collectOnboardingFiles_eq_nil walk h]
  rfl

theorem c10_witness :
    onboard_folder cfg0 "/f" [⟨"/f", ["sub"], ["notes.txt", ".hidden.jpg"]⟩] 200
      = ([], Except.ok ()) :=
  onboard_folder_no_supported_no_effects cfg0 "/f"
    [⟨"/f", ["sub"], ["notes.txt", ".hidden.jpg"]⟩] 200 (by decide)

/-- C8: ` strip_path_prefix` removes every occurrence of `folder_name`
from `file_path` — not only a leading one — and then one leading `'/'`
from the result.  Part (1): when `folder_name` occurs only as the
leading prefix of `file_path = folder_name ++ "/" ++ rest`, the result
is `rest`, the path relative to the folder.  Part (2): a non-leading
occurrence is removed too (`"/d"` occurs twice in `"/d/a/d/b.jpg"` and
both occurrences go). -/
theorem strip_path_removes_every_occurrence :
    (∀ folder rest : List Char, folder ≠ [] →
        containsSub folder ('/' :: rest) = false →
        strip_path_prefix ⟨folder⟩ ⟨folder ++ '/' :: rest⟩ = ⟨rest⟩)
    ∧ strip_path_prefix "/d" "/d/a/d/b.jpg" = "a/b.jpg" := by
  constructor
  · intro folder rest hne hocc
    show String.mk ( stripChars folder (folder ++ '/' :: rest)) = String.mk rest
    unfold stripChars
    rw [removeAll_append_self folder ('/' :: rest) hne,
        removeAll_of_not_containsSub folder ('/' :: rest) hocc]
    rfl
  · decide

theorem c8_witness :
    strip_path_prefix ⟨['a', 'b']⟩ ⟨['a', 'b', '/', 'x', '.', 'j', 'p', 'g']⟩
      = ⟨['x', '.', 'j', 'p', 'g']⟩ :=
  strip_path_removes_every_occurrence.1 ['a', 'b'] ['x', '.', 'j', 'p', 'g']
    (by decide) (by decide)

/-- C2: `_download_bounds` maps a missing count to `DEFAULT_NUM_IMAGES`
(40), raises `ImageLimitException` exactly when the effective count is
`≤ 0` or `> 100`, and otherwise returns the effective count unchanged;
`download` sends the returned count as the `imageCount` query parameter
of its GET of the images endpoint. -/
theorem download_bounds_spec :
    _download_bounds none = Except.ok 40
    ∧ (∀ n : Int,
        (_download_bounds (some n) = Except.error ImageLimitException.mk ↔
          (n ≤ 0 ∨ 100 < n))
        ∧ (¬(n ≤ 0 ∨ 100 < n) → _download_bounds (some n) = Except.ok n))
    ∧ (∀ (config : Config) (num_images : Option Int) (resp : ImagesResponse)
          (taggingDirExists : Bool) (k : Int),
        _download_bounds num_images = Except.ok k →
        (download config num_images resp taggingDirExists).1.head? =
          some (Effect.httpGet (config.url ++ "/api/images")
            [("imageCount", toString k),
             ("userName", config.tagging_user),
             ("checkOut", "true")])) := by
  refine ⟨by decide, fun n => ⟨?_, ?_⟩, ?_⟩
  · unfold _download_bounds
    by_cases h : n ≤ LOWER_LIMIT ∨ UPPER_LIMIT < n
    · rw [if_pos h]
      simpa [LOWER_LIMIT, UPPER_LIMIT] using h
    · rw [if_neg h]
      simp only [LOWER_LIMIT, UPPER_LIMIT] at h
      simpa using h
  · intro h
    unfold _download_bounds
    rw [if_neg (by simpa [LOWER_LIMIT, UPPER_LIMIT] using h)]
  · intro config num_images resp taggingDirExists k hk
    unfold download
    rw [hk]
    cases hs : raise_for_status resp.status with
    | error e => rfl
    | ok u =>
      by_cases h0 : resp.images.length = 0
      · simp only [h0]
        rfl
      · simp only [h0]
        rw [if_neg not_false, List.cons_append]
        rfl

theorem c2_witness :
    (download cfg0 (some 7)
        ⟨200, [], []⟩ false).1.head? =
      some (Effect.httpGet (cfg0.url ++ "/api/images")
        [("imageCount", toString (7 : Int)),
         ("userName", cfg0.tagging_user),
         ("checkOut", "true")]) :=
  download_bounds_spec.2.2 cfg0 (some 7) ⟨200, [], []⟩ false 7 (by decide)

/-- C4: each remote-service call (the onboard-container POST, the
images GET, the labels POST) propagates HTTP errors: on a non-success
status the flow's result is the raised `HTTPError` and the effect trace
ends at that single call — no later step of the flow runs, and the call
is not retried. -/
theorem http_errors_propagate (s : Nat) (hs : isErrorStatus s = true) :
    (∀ (config : Config) (account key container : String),
        onboard_container config account key container s =
          ([Effect.httpPost (config.url ++ "/api/onboardcontainer")
              [("userName", config.tagging_user)]
              (PostBody.onboardReq account key container)],
           Except.error ⟨s⟩))
    ∧ (∀ (config : Config) (num_images : Option Int) (images : List ImageLabel)
          (classes : List String) (taggingDirExists : Bool) (k : Int),
        _download_bounds num_images = Except.ok k →
        download config num_images ⟨s, images, classes⟩ taggingDirExists =
          ([Effect.httpGet (config.url ++ "/api/images")
              [("imageCount", toString k),
               ("userName", config.tagging_user),
               ("checkOut", "true")]],
           Except.error (FlowError.http ⟨s⟩)))
    ∧ (∀ (config : Config) (json_data : VottJson),
        upload config json_data s =
          ([Effect.readJsonFile (expanduser config.tagging_location ++ "/data.json"),
            Effect.httpPost (config.url ++ "/api/labels")
              [("userName", config.tagging_user), ("upload", "true")]
              (PostBody.labelsReq ( process_vott_json json_data))],
           Except.error ⟨s⟩)) := by
  have hr : raise_for_status s = Except.error ⟨s⟩ := by
    unfold raise_for_status
    rw [if_pos hs]
  refine ⟨?_, ?_, ?_⟩
  · intro config account key container
    unfold onboard_container
    rw [hr]
  · intro config num_images images classes taggingDirExists k hk
    unfold download
    rw [hk]
    dsimp only
    rw [hr]
  · intro config json_data
    unfold upload
    rw [hr]

theorem c4_witness :
    onboard_container cfg0 "acct" "key" "cont" 503 =
      ([Effect.httpPost (cfg0.url ++ "/api/onboardcontainer")
          [("userName", cfg0.tagging_user)]
          (PostBody.onboardReq "acct" "key" "cont")],
       Except.error ⟨503⟩)
    ∧ download cfg0 none ⟨404, [], []⟩ false =
      ([Effect.httpGet (cfg0.url ++ "/api/images")
          [("imageCount", toString (40 : Int)),
           ("userName", cfg0.tagging_user),
           ("checkOut", "true")]],
       Except.error (FlowError.http ⟨404⟩))
    ∧ upload cfg0 ⟨[], []⟩ 500 =
      ([Effect.readJsonFile (expanduser cfg0.tagging_location ++ "/data.json"),
        Effect.httpPost (cfg0.url ++ "/api/labels")
          [("userName", cfg0.tagging_user), ("upload", "true")]
          (PostBody.labelsReq ( process_vott_json ⟨[], []⟩))],
       Except.error ⟨500⟩) :=
  ⟨(http_errors_propagate 503 (by decide)).1 cfg0 "acct" "key" "cont",
   (http_errors_propagate 404 (by decide)).2.1 cfg0 none [] [] false 40 (by decide),
   (http_errors_propagate 500 (by decide)).2.2 cfg0 ⟨[], []⟩⟩

/-- C6: `upload` reads the locally edited `data.json` from the tagging
location, transforms its parsed content with `process_vott_json`, and
POSTs the transformed document to the remote labels endpoint with the
user name and `upload=true` as query parameters. -/
theorem upload_reads_transforms_posts (config : Config) (json_data : VottJson)
    (respStatus : Nat) :
    (upload config json_data respStatus).1 =
      [Effect.readJsonFile (expanduser config.tagging_location ++ "/data.json"),
       Effect.httpPost (config.url ++ "/api/labels")
         [("userName", config.tagging_user), ("upload", "true")]
         (PostBody.labelsReq ( process_vott_json json_data))] := rfl

/-- C7: the schema transforms between the labeling-tool format and the
service's label format are pure mappings: equal inputs give equal
outputs on any two runs, and in the embedded flows they contribute no
effect — `upload`'s whole trace, which contains the `process_vott_json`
call, touches no filesystem state, and the transforms appear only
inside effect payloads, never as effects. -/
theorem vott_transforms_are_pure :
    (∀ v w : VottJson, v = w → process_vott_json v = process_vott_json w)
    ∧ (∀ (l1 l2 : List ImageLabel) (c1 c2 : List String),
        l1 = l2 → c1 = c2 →
        create_vott_json_from_image_labels l1 c1 =
          create_vott_json_from_image_labels l2 c2)
    ∧ (∀ (config : Config) (json_data : VottJson) (respStatus : Nat),
        ((upload config json_data respStatus).1.filter
          (fun e => isFsEffect e)) = []) := by
  refine ⟨fun v w h => by rw [h], fun l1 l2 c1 c2 h1 h2 => by rw [h1, h2], ?_⟩
  intro config json_data respStatus
  rfl

theorem c7_witness :
    process_vott_json ⟨[("a.png", [⟨"cat", 1, 2, 3, 4⟩])], ["cat"]⟩ =
      process_vott_json ⟨[("a.png", [⟨"cat", 1, 2, 3, 4⟩])], ["cat"]⟩ :=
  vott_transforms_are_pure.1 _ _ rfl

/-- C9: `download` touches the local filesystem only when the images
endpoint returns a non-empty batch.  On an empty batch it returns right
after the GET with no filesystem effect at all (any pre-existing tagging
directory survives); on a non-empty batch, when the tagging directory
exists its removal happens, and it happens before the new data
directory is created. -/
theorem download_rmtree_only_on_nonempty (config : Config)
    (num_images : Option Int) (resp : ImagesResponse) (taggingDirExists : Bool)
    (k : Int) (hk : _download_bounds num_images = Except.ok k)
    (hs : isErrorStatus resp.status = false) :
    (resp.images = [] →
      download config num_images resp taggingDirExists =
        ([Effect.httpGet (config.url ++ "/api/images")
            [("imageCount", toString k), ("userName", config.tagging_user),
             ("checkOut", "true")]],
         Except.ok ())
      ∧ ∀ e ∈ (download config num_images resp taggingDirExists).1,
          isFsEffect e = false)
    ∧ (resp.images ≠ [] →
      ∃ rest : List Effect,
        (download config num_images resp taggingDirExists).1 =
          Effect.httpGet (config.url ++ "/api/images")
            [("imageCount", toString k), ("userName", config.tagging_user),
             ("checkOut", "true")]
          :: ((if taggingDirExists then
                 [Effect.rmtree (expanduser config.tagging_location)]
               else [])
              ++ Effect.mkdir (expanduser config.tagging_location ++ "/data")
                :: rest)) := by
  have hr : raise_for_status resp.status = Except.ok () := by
    unfold raise_for_status
    rw [if_neg (by rw [hs]; exact Bool.false_ne_true)]
  have hd : ∀ h0 : resp.images.length = 0,
      download config num_images resp taggingDirExists =
        ([Effect.httpGet (config.url ++ "/api/images")
            [("imageCount", toString k), ("userName", config.tagging_user),
             ("checkOut", "true")]],
         Except.ok ()) := by
    intro h0
    unfold download
    rw [hk]
    dsimp only
    rw [hr]
    dsimp only
    rw [if_pos h0]
  constructor
  · intro hnil
    have h0 : resp.images.length = 0 := by rw [hnil]; rfl
    refine ⟨hd h0, ?_⟩
    rw [hd h0]
    intro e he
    rcases List.mem_singleton.mp he with rfl
    rfl
  · intro hne
    refine ⟨(download_images (expanduser config.tagging_location ++ "/data")
      (some (create_vott_json_from_image_labels resp.images
        resp.classification_list).1)
      (create_vott_json_from_image_labels resp.images
        resp.classification_list).2).1, ?_⟩
    unfold download
    rw [hk]
    dsimp only
    rw [hr]
    dsimp only
    rw [if_neg (fun h0 => hne (List.length_eq_zero.mp h0)), List.cons_append]

theorem c9_witness :
    (download cfg0 (some 2) ⟨200, [], ["cat"]⟩ true =
        ([Effect.httpGet (cfg0.url ++ "/api/images")
            [("imageCount", toString (2 : Int)), ("userName", cfg0.tagging_user),
             ("checkOut", "true")]],
         Except.ok ())
      ∧ ∀ e ∈ (download cfg0 (some 2) ⟨200, [], ["cat"]⟩ true).1,
          isFsEffect e = false)
    ∧ ∃ rest : List Effect,
        (download cfg0 (some 2)
            ⟨200, [⟨1, "http://blob/i.png", []⟩], ["cat"]⟩ true).1 =
          Effect.httpGet (cfg0.url ++ "/api/images")
            [("imageCount", toString (2 : Int)), ("userName", cfg0.tagging_user),
             ("checkOut", "true")]
          :: ((if true then [Effect.rmtree (expanduser cfg0.tagging_location)]
               else [])
              ++ Effect.mkdir (expanduser cfg0.tagging_location ++ "/data")
                :: rest) :=
  ⟨(download_rmtree_only_on_nonempty cfg0 (some 2) ⟨200, [], ["cat"]⟩ true 2
      (by decide) (by decide)).1 rfl,
   (download_rmtree_only_on_nonempty cfg0 (some 2)
      ⟨200, [⟨1, "http://blob/i.png", []⟩], ["cat"]⟩ true 2
      (by decide) (by decide)).2 (by decide)⟩

theorem downloadImagesLoop_paths (image_dir : String) :
    ∀ urls : List String,
      (downloadImagesLoop image_dir urls).2 =
        urls.map (fun u => image_dir ++ "/" ++ urlName u) := by
  intro urls
  induction urls with
  | nil => rfl
  | cons u rest ih =>
    show (image_dir ++ "/" ++ urlName u) :: (downloadImagesLoop image_dir rest).2
        = _
    rw [ih, List.map_cons]

theorem downloadImagesLoop_effects (image_dir : String) :
    ∀ urls : List String,
      (downloadImagesLoop image_dir urls).1 =
        urls.flatMap (fun u =>
          [Effect.httpGet u [],
           Effect.writeImageFile (image_dir ++ "/" ++ urlName u) u]) := by
  intro urls
  induction urls with
  | nil => rfl
  | cons u rest ih =>
    show Effect.httpGet u []
        :: Effect.writeImageFile (image_dir ++ "/" ++ urlName u) u
        :: (downloadImagesLoop image_dir rest).1 = _
    rw [ih, List.flatMap_cons]
    rfl

theorem splitSlash_ne_nil : ∀ cs : List Char, splitSlash cs ≠ []
  | [] => by simp [splitSlash]
  | c :: rest => by
    unfold splitSlash
    by_cases hc : c = '/'
    · rw [if_pos hc]
      simp
    · rw [if_neg hc]
      cases h : splitSlash rest with
      | nil => simp
      | cons g gs => simp

theorem splitSlash_cons (c : Char) (y : List Char) :
    splitSlash (c :: y) =
      if c = '/' then [] :: splitSlash y
      else
        match splitSlash y with
        | g :: gs => (c :: g) :: gs
        | [] => [[c]] := rfl

theorem splitSlash_append :
    ∀ x y : List Char, splitSlash (x ++ '/' :: y) = splitSlash x ++ splitSlash y := by
  intro x
  induction x with
  | nil =>
    intro y
    rw [List.nil_append, splitSlash_cons, if_pos rfl]
    rfl
  | cons c x' ih =>
    intro y
    rw [List.cons_append, splitSlash_cons, splitSlash_cons c x']
    by_cases hc : c = '/'
    · rw [if_pos hc, if_pos hc, ih, List.cons_append]
    · rw [if_neg hc, if_neg hc, ih]
      cases h : splitSlash x' with
      | nil => exact absurd h (splitSlash_ne_nil x')
      | cons g gs => rfl

theorem normStep_push (acc : List (List Char)) (c : List Char)
    (h1 : c ≠ []) (h2 : c ≠ ['.']) (h3 : c ≠ ['.', '.']) :
    normStep acc c = acc ++ [c] := by
  unfold normStep
  rw [if_neg (not_or.mpr ⟨h1, h2⟩), if_neg h3]

theorem normStep_pop (acc : List (List Char)) (d : List Char)
    (hd : d ≠ ['.', '.']) :
    normStep (acc ++ [d]) ['.', '.'] = acc := by
  unfold normStep
  rw [if_neg (by simp), if_pos rfl, List.getLast?_concat]
  show (if d = ['.', '.'] then (acc ++ [d]) ++ [['.', '.']]
        else (acc ++ [d]).dropLast) = acc
  rw [if_neg hd, List.dropLast_concat]

/-- C5: on a non-empty batch the download flow writes the labeling-tool
document to `<data_dir>/../data.json`, which resolves one directory
level above the data directory — alongside it in the tagging location;
for every URL in the response's image-URL list `download_images`
performs exactly one GET and writes exactly one local file in the data
directory named by the URL's last path component, returning the local
paths in the same order as the URLs; and on a non-empty batch `download`
invokes exactly this on `<tagging_location>/data` with the generated
document and URL list. -/
theorem download_images_layout :
    (∀ (image_dir : String) (vott : VottJson) (urls : List String),
        (download_images image_dir (some vott) urls).2 =
          urls.map (fun u => image_dir ++ "/" ++ urlName u))
    ∧ (∀ (image_dir : String) (vott : VottJson) (urls : List String),
        (download_images image_dir (some vott) urls).1 =
          Effect.writeJsonFile (image_dir ++ "/../data.json") vott
            :: urls.flatMap (fun u =>
                 [Effect.httpGet u [],
                  Effect.writeImageFile (image_dir ++ "/" ++ urlName u) u]))
    ∧ (∀ t : String,
        normPath ((t ++ "/data") ++ "/../data.json") = normPath (t ++ "/data.json"))
    ∧ (∀ (config : Config) (num_images : Option Int) (resp : ImagesResponse)
          (taggingDirExists : Bool) (k : Int),
        _download_bounds num_images = Except.ok k →
        isErrorStatus resp.status = false →
        resp.images ≠ [] →
        ∃ pre : List Effect,
          (download config num_images resp taggingDirExists).1 =
            pre ++ (download_images (expanduser config.tagging_location ++ "/data")
              (some (create_vott_json_from_image_labels resp.images
                resp.classification_list).1)
              (create_vott_json_from_image_labels resp.images
                resp.classification_list).2).1) := by
  refine ⟨fun image_dir vott urls => downloadImagesLoop_paths image_dir urls,
    ?_, ?_, ?_⟩
  · intro image_dir vott urls
    show Effect.writeJsonFile (image_dir ++ "/../data.json") vott
        :: (downloadImagesLoop image_dir urls).1 = _
    rw [downloadImagesLoop_effects]
  · intro t
    show normComps (splitSlash ((t ++ "/data") ++ "/../data.json").data)
        = normComps (splitSlash ((t ++ "/data.json")).data)
    have e1 : ((t ++ "/data") ++ "/../data.json").data
        = t.data ++ '/' :: (['d', 'a', 't', 'a'] ++ '/' :: (['.', '.']
            ++ '/' :: ['d', 'a', 't', 'a', '.', 'j', 's', 'o', 'n'])) := by
      show (t.data ++ ('/' :: ['d', 'a', 't', 'a']))
          ++ ('/' :: (['.', '.'] ++ '/' :: ['d', 'a', 't', 'a', '.', 'j', 's', 'o', 'n'])) = _
      rw [List.append_assoc]
      rfl
    have e3 : (t ++ "/data.json").data
        = t.data ++ '/' :: ['d', 'a', 't', 'a', '.', 'j', 's', 'o', 'n'] := rfl
    rw [e1, e3, splitSlash_append t.data, splitSlash_append t.data]
    have e2 : splitSlash (['d', 'a', 't', 'a'] ++ '/' :: (['.', '.']
        ++ '/' :: ['d', 'a', 't', 'a', '.', 'j', 's', 'o', 'n']))
        = [['d', 'a', 't', 'a'], ['.', '.'],
           ['d', 'a', 't', 'a', '.', 'j', 's', 'o', 'n']] := rfl
    have e4 : splitSlash ['d', 'a', 't', 'a', '.', 'j', 's', 'o', 'n']
        = [['d', 'a', 't', 'a', '.', 'j', 's', 'o', 'n']] := rfl
    rw [e2, e4]
    unfold normComps
    rw [List.foldl_append, List.foldl_append]
    simp only [List.foldl_cons, List.foldl_nil]
    rw [normStep_push (List.foldl normStep [] (splitSlash t.data))
          ['d', 'a', 't', 'a'] (by decide) (by decide) (by decide),
        normStep_pop (List.foldl normStep [] (splitSlash t.data))
          ['d', 'a', 't', 'a'] (by decide)]
  · intro config num_images resp taggingDirExists k hk hs hne
    have hr : raise_for_status resp.status = Except.ok () := by
      unfold raise_for_status
      rw [if_neg (by rw [hs]; exact Bool.false_ne_true)]
    refine ⟨Effect.httpGet (config.url ++ "/api/images")
        [("imageCount", toString k), ("userName", config.tagging_user),
         ("checkOut", "true")]
      :: ((if taggingDirExists then
             [Effect.rmtree (expanduser config.tagging_location)]
           else [])
          ++ [Effect.mkdir (expanduser config.tagging_location ++ "/data")]), ?_⟩
    unfold download
    rw [hk]
    dsimp only
    rw [hr]
    dsimp only
    rw [if_neg (fun h0 => hne (List.length_eq_zero.mp h0))]
    simp [List.append_assoc]

theorem c5_witness :
    ∃ pre : List Effect,
      (download cfg0 none
          ⟨200, [⟨1, "http://blob/i.png", []⟩], ["cat"]⟩ false).1 =
        pre ++ (download_images (expanduser cfg0.tagging_location ++ "/data")
          (some (create_vott_json_from_image_labels
            [⟨1, "http://blob/i.png", []⟩] ["cat"]).1)
          (create_vott_json_from_image_labels
            [⟨1, "http://blob/i.png", []⟩] ["cat"]).2).1 :=
  download_images_layout.2.2.2 cfg0 none
    ⟨200, [⟨1, "http://blob/i.png", []⟩], ["cat"]⟩ false 40
    (by decide) (by decide) (by decide)
